import Mathlib

/-!
Verification of the OpenPAF voxel-grid core (src/core/voxelgrid.go and the
divmod helper of src/core).

Shallow embedding conventions:
* Go `uint` values are modelled as `ℕ` (voxel counts and indices never
  overflow in any reachable allocation).
* Go `float32` scalars are modelled as `ℚ`; the claims under study only
  involve exact values (0, 0.5, 1, 1.5, …) where float32 arithmetic is exact.
* A Go `panic` (out-of-range slice access, explicit panic call, integer
  division by zero) is modelled as `none` of an `Option` result; code that
  cannot panic returns a plain value.
-/

namespace OpenPAF

/-- Voxel (src/core, type `Voxel float32`): a volumetric pixel holding a
single scalar value, modelled as `ℚ`. -/
abbrev Voxel := ℚ

/-- VoxelGrid (src/core/voxelgrid.go): resolution per dimensional unit, the
three voxel counts `[3]uint`, and the flat slice of stored voxels. -/
structure VoxelGrid where
  resolution : ℕ
  counts : ℕ × ℕ × ℕ
  voxels : List Voxel
deriving DecidableEq

/-- divmod (src/core): integer quotient and remainder. Go integer division
by zero panics, hence the `Option`. -/
def divmod (numerator denominator : ℕ) : Option (ℕ × ℕ) :=
  if denominator = 0 then none
  else some (numerator / denominator, numerator % denominator)

/-- NewVoxelGrid (voxelgrid.go:18-28): each count is
`uint(ceil(abs(extent * resolution)))`; the voxel slice is allocated with
length `w*h*d` and zero-initialized by `make`. The body has no panic path,
so the result is always `some`. -/
def NewVoxelGrid (width height depth : ℚ) (resolution : ℕ) :
    Option VoxelGrid :=
  let w := (Int.ceil |width * (resolution : ℚ)|).toNat
  let h := (Int.ceil |height * (resolution : ℚ)|).toNat
  let d := (Int.ceil |depth * (resolution : ℚ)|).toNat
  some { resolution := resolution
         counts := (w, h, d)
         voxels := List.replicate (w * h * d) 0 }

/-- getIndex (voxelgrid.go:31-39): panics when any coordinate reaches its
dimension, else returns `w*h*z + w*y + x`. -/
def getIndex (vg : VoxelGrid) (x y z : ℕ) : Option ℕ :=
  let w := vg.counts.1
  let h := vg.counts.2.1
  let d := vg.counts.2.2
  if x ≥ w ∨ y ≥ h ∨ z ≥ d then none
  else some (w * h * z + w * y + x)

/-- getCoordinate (voxelgrid.go:42-51): panics when `index` exceeds
`len(vg.voxels)` (strict `>` in the source); then
`zquo, z := divmod(index, counts[2])`, `yquo, y := divmod(zquo, counts[1])`,
`x = yquo % counts[0]`. Each division panics when its divisor is zero. -/
def getCoordinate (vg : VoxelGrid) (index : ℕ) : Option (ℕ × ℕ × ℕ) :=
  if index > vg.voxels.length then none
  else
    match divmod index vg.counts.2.2 with
    | none => none
    | some (zquo, z) =>
      match divmod zquo vg.counts.2.1 with
      | none => none
      | some (yquo, y) =>
        if vg.counts.1 = 0 then none
        else some (yquo % vg.counts.1, y, z)

/-- Get (voxelgrid.go:54-56): bounds-checked read
`vg.voxels[vg.getIndex(x, y, z)]`; the slice access panics when the index
reaches the slice length. -/
def Get (vg : VoxelGrid) (x y z : ℕ) : Option Voxel :=
  match getIndex vg x y z with
  | none => none
  | some i => vg.voxels[i]?

/-- Set (voxelgrid.go:59-61): bounds-checked write
`vg.voxels[vg.getIndex(x, y, z)] = vox`; the slice store panics when the
index reaches the slice length. No clamping is applied to `vox`. -/
def Set (vg : VoxelGrid) (x y z : ℕ) (vox : Voxel) : Option VoxelGrid :=
  match getIndex vg x y z with
  | none => none
  | some i =>
    if i < vg.voxels.length then
      some { vg with voxels := vg.voxels.set i vox }
    else none

/-- Go built-in `copy(dst, src)`: copies `min (len dst) (len src)` elements
from the start of `src` over the start of `dst` and leaves the rest of
`dst` unchanged. -/
def goCopy (dst src : List Voxel) : List Voxel :=
  src.take dst.length ++ dst.drop src.length

/-- Copy (voxelgrid.go:64-68): the new grid literal sets only `counts`, so
`resolution` is the zero value and `voxels` is the nil slice; the
subsequent `copy(newGrid.voxels, vg.voxels)` therefore copies zero
elements. -/
def Copy (vg : VoxelGrid) : VoxelGrid :=
  let newGrid : VoxelGrid := { resolution := 0, counts := vg.counts, voxels := [] }
  { newGrid with voxels := goCopy newGrid.voxels vg.voxels }

/-- clamp of Fill (voxelgrid.go:72): `math32.Min(1, math32.Max(0, value))`. -/
def clamp01 (value : ℚ) : ℚ := min 1 (max 0 value)

/-- Fill (voxelgrid.go:71-78): clamps the value to [0,1] and assigns it to
every voxel. -/
def Fill (vg : VoxelGrid) (value : ℚ) : VoxelGrid :=
  { vg with voxels := vg.voxels.map (fun _ => clamp01 value) }

/-- HighPass (voxelgrid.go:93-102): each voxel becomes 1 when its previous
value is strictly greater than the tolerance, else 0 (the loop variable `v`
is the element value read before the writes). -/
def HighPass (vg : VoxelGrid) (tolerance : ℚ) : VoxelGrid :=
  { vg with voxels := vg.voxels.map (fun v => if tolerance < v then 1 else 0) }

/-- Randomize (voxelgrid.go:82-89) writes `r.Float32()` into every voxel,
where `r := rand.New(rand.NewSource(seed))` is a locally owned generator.
`math/rand` is external to this repository; it is modelled by its
documented contract as a parameter `stream : ℤ → ℕ → ℚ`, where
`stream seed i` is the i-th Float32 draw of a generator seeded with
`seed` — a pure function of the seed alone, each draw in [0,1). -/
def Randomize (stream : ℤ → ℕ → ℚ) (seed : ℤ) (vg : VoxelGrid) : VoxelGrid :=
  { vg with voxels := (List.range vg.voxels.length).map (stream seed) }

/-- VertexPoints (voxelgrid.go:106-123): walks the voxels in ascending
index order, skips values `< 0.5`, converts each remaining index through
`getCoordinate` and divides by the resolution. A panic inside the loop
(from `getCoordinate`) discards the whole result, hence the `Option`. -/
def VertexPoints (vg : VoxelGrid) : Option (List (ℚ × ℚ × ℚ)) :=
  (vg.voxels.enum.filter (fun p => ¬ p.2 < (1 : ℚ) / 2)).mapM
    (fun p =>
      (getCoordinate vg p.1).map
        (fun c =>
          (((c.1 : ℚ) / (vg.resolution : ℚ)),
           ((c.2.1 : ℚ) / (vg.resolution : ℚ)),
           ((c.2.2 : ℚ) / (vg.resolution : ℚ)))))

/-- A 2×2×2 grid at resolution 1, exactly the grid `NewVoxelGrid(2,2,2,1)`
allocates. -/
def grid222 : VoxelGrid :=
  { resolution := 1, counts := (2, 2, 2), voxels := List.replicate 8 0 }

/-- A 1×1×1 grid at resolution 1 whose single voxel holds 1. -/
def grid111one : VoxelGrid :=
  { resolution := 1, counts := (1, 1, 1), voxels := [1] }

/-- A 2×2×2 grid whose only occupied voxel sits at slice index 1, which is
`getIndex(1,0,0)` under the grid linearization. -/
def gridPoint : VoxelGrid :=
  { resolution := 1, counts := (2, 2, 2), voxels := [0, 1, 0, 0, 0, 0, 0, 0] }

/-- A second grid with the same counts as `grid222` but different
resolution and contents. -/
def grid222alt : VoxelGrid :=
  { resolution := 7, counts := (2, 2, 2), voxels := List.replicate 8 1 }

/-- A 1×1×1 grid whose single voxel holds exactly 0.5. -/
def gridHalf : VoxelGrid :=
  { resolution := 1, counts := (1, 1, 1), voxels := [1 / 2] }

/-- A concrete random stream for tests: every draw is 0.5, inside the
documented range [0,1) of Float32 draws. -/
def halfStream : ℤ → ℕ → ℚ := fun _ _ => 1 / 2

/-!
Surface extraction. `Mesh` (voxelgrid.go:125-129) is an empty TODO stub in
the repository, so the extractor below is built from the specification
text alone (spec §4.2, marching cubes), not from source code.
-/

/-- Modelled from the spec: the mesh produced by surface extraction —
world-space vertex positions plus triples of indices into the vertex
sequence (spec §3, SurfaceExtractor output). -/
structure MCMesh where
  vertices : List (ℚ × ℚ × ℚ)
  triangles : List (ℕ × ℕ × ℕ)
deriving DecidableEq

/-- Modelled from the spec: the 8 corner offsets `(0,0,0)…(1,1,1)` of a
march cube (spec §4.2 step 2), in the standard marching-cubes corner
order. -/
def cornerOffsets : List (ℕ × ℕ × ℕ) :=
  [(0, 0, 0), (1, 0, 0), (1, 1, 0), (0, 1, 0),
   (0, 0, 1), (1, 0, 1), (1, 1, 1), (0, 1, 1)]

/-- Modelled from the spec: offset of corner `i` of a march cube. -/
def cornerOffset (i : ℕ) : ℕ × ℕ × ℕ := cornerOffsets.getD i (0, 0, 0)

/-- Modelled from the spec: the two corners joined by each of the 12 cube
edges (spec §4.2 steps 3-4), in the standard marching-cubes edge order. -/
def edgeCorners (e : ℕ) : ℕ × ℕ :=
  [(0, 1), (1, 2), (2, 3), (3, 0), (4, 5), (5, 6), (6, 7), (7, 4),
   (0, 4), (1, 5), (2, 6), (3, 7)].getD e (0, 1)

/-- Modelled from the spec: the scalar stored for the cell at grid
coordinates `(x,y,z)` under the row-major linearization
`index = w*h*z + w*y + x` of spec §3 (reads during extraction are
in-bounds by step 1, so the default is never consulted on a grid
satisfying the length invariant). -/
def cellValue (vg : VoxelGrid) (x y z : ℕ) : ℚ :=
  vg.voxels.getD
    (vg.counts.1 * vg.counts.2.1 * z + vg.counts.1 * y + x) 0

/-- Modelled from the spec: the value at corner `i` of the march cube
anchored at `(x,y,z)` (spec §4.2 step 2). -/
def cornerValue (vg : VoxelGrid) (x y z i : ℕ) : ℚ :=
  cellValue vg (x + (cornerOffset i).1) (y + (cornerOffset i).2.1)
    (z + (cornerOffset i).2.2)

/-- Modelled from the spec: the 8-bit cube classification — bit `i` is set
exactly when corner `i` is above the iso-value (spec §4.2 step 3). -/
def cubeConfig (vg : VoxelGrid) (iso : ℚ) (x y z : ℕ) : ℕ :=
  (if iso < cornerValue vg x y z 0 then 1 else 0) +
  (if iso < cornerValue vg x y z 1 then 2 else 0) +
  (if iso < cornerValue vg x y z 2 then 4 else 0) +
  (if iso < cornerValue vg x y z 3 then 8 else 0) +
  (if iso < cornerValue vg x y z 4 then 16 else 0) +
  (if iso < cornerValue vg x y z 5 then 32 else 0) +
  (if iso < cornerValue vg x y z 6 then 64 else 0) +
  (if iso < cornerValue vg x y z 7 then 128 else 0)

/-- Modelled from the spec: grid-space position of corner `i` of the cube
anchored at `(x,y,z)`. -/
def cornerPos (x y z i : ℕ) : ℚ × ℚ × ℚ :=
  (((x + (cornerOffset i).1 : ℕ) : ℚ),
   ((y + (cornerOffset i).2.1 : ℕ) : ℚ),
   ((z + (cornerOffset i).2.2 : ℕ) : ℚ))

/-- Modelled from the spec: componentwise linear interpolation between two
points. -/
def lerpPt (p q : ℚ × ℚ × ℚ) (t : ℚ) : ℚ × ℚ × ℚ :=
  (p.1 + t * (q.1 - p.1), p.2.1 + t * (q.2.1 - p.2.1),
   p.2.2 + t * (q.2.2 - p.2.2))

/-- Modelled from the spec: the surface-crossing point on edge `e` —
`t = (iso - v0) / (v1 - v0)` clamped to `[0,1]` to guard degenerate
equal-value edges, then `lerp(p0, p1, t)` (spec §4.2 step 4). -/
def edgePoint (vg : VoxelGrid) (iso : ℚ) (x y z e : ℕ) : ℚ × ℚ × ℚ :=
  let ec := edgeCorners e
  let v0 := cornerValue vg x y z ec.1
  let v1 := cornerValue vg x y z ec.2
  lerpPt (cornerPos x y z ec.1) (cornerPos x y z ec.2)
    (clamp01 ((iso - v0) / (v1 - v0)))

/-- Modelled from the spec: the triangles one cube contributes — the
classification byte indexes the triangulation table, whose entry lists
triples of intersected edges; each edge becomes its interpolated crossing
point (spec §4.2 steps 3-5). The 256-entry table is static data the spec
constrains but does not enumerate, so it is a parameter. -/
def cubeTriangles (table : ℕ → List (ℕ × ℕ × ℕ)) (iso : ℚ)
    (vg : VoxelGrid) (x y z : ℕ) :
    List ((ℚ × ℚ × ℚ) × (ℚ × ℚ × ℚ) × (ℚ × ℚ × ℚ)) :=
  (table (cubeConfig vg iso x y z)).map
    (fun tri =>
      (edgePoint vg iso x y z tri.1, edgePoint vg iso x y z tri.2.1,
       edgePoint vg iso x y z tri.2.2))

/-- Modelled from the spec: every cube anchor `(x,y,z)` whose `+1`
neighbors are in-bounds, i.e. `x ∈ [0, w-2]` and similarly for y, z
(spec §4.2 step 1). -/
def cubePositions (vg : VoxelGrid) : List (ℕ × ℕ × ℕ) :=
  ((List.range (vg.counts.2.2 - 1)).map (fun z =>
    ((List.range (vg.counts.2.1 - 1)).map (fun y =>
      (List.range (vg.counts.1 - 1)).map (fun x => (x, y, z)))).flatten)).flatten

/-- Modelled from the spec: all triangles of the extraction, cube by
cube, as triples of grid-space points. -/
def extractTriangles (table : ℕ → List (ℕ × ℕ × ℕ)) (iso : ℚ)
    (vg : VoxelGrid) :
    List ((ℚ × ℚ × ℚ) × (ℚ × ℚ × ℚ) × (ℚ × ℚ × ℚ)) :=
  ((cubePositions vg).map
    (fun p => cubeTriangles table iso vg p.1 p.2.1 p.2.2)).flatten

/-- Modelled from the spec: division of a grid-space point by the
resolution to reach world space (spec §4.2 step 6). -/
def scalePt (res : ℕ) (p : ℚ × ℚ × ℚ) : ℚ × ℚ × ℚ :=
  (p.1 / (res : ℚ), p.2.1 / (res : ℚ), p.2.2 / (res : ℚ))

/-- Modelled from the spec: the full extraction (spec §4.2 steps 1-6) —
one mesh vertex per interpolated edge point with no cross-cube
deduplication, one index triple per table triangle, everything scaled to
world space. -/
def extract (table : ℕ → List (ℕ × ℕ × ℕ)) (iso : ℚ) (vg : VoxelGrid) :
    MCMesh :=
  let tris := extractTriangles table iso vg
  { vertices :=
      ((tris.map (fun t => [t.1, t.2.1, t.2.2])).flatten).map
        (scalePt vg.resolution)
    triangles :=
      (List.range tris.length).map (fun j => (3 * j, 3 * j + 1, 3 * j + 2)) }

/-- A concrete triangulation table for tests: the single-corner cut of
configuration 1 (the standard entry), empty elsewhere. -/
def cornerCutTable : ℕ → List (ℕ × ℕ × ℕ) :=
  fun c => if c = 1 then [(0, 8, 3)] else []

/-!
General lemmas about the linearization `index = w*h*z + w*y + x`.
-/

/-- Valid coordinates produce an index strictly below `w*h*d`. -/
theorem index_lt {w h d x y z : ℕ} (hx : x < w) (hy : y < h) (hz : z < d) :
    w * h * z + w * y + x < w * h * d := by
  calc w * h * z + w * y + x < w * h * z + w * y + w := by omega
    _ = w * (h * z + y + 1) := by ring
    _ ≤ w * (h * z + h) := Nat.mul_le_mul_left w (by omega)
    _ = w * h * (z + 1) := by ring
    _ ≤ w * h * d := Nat.mul_le_mul_left (w * h) (by omega)

/-- Base-`b` digit decomposition is unique. -/
theorem digit_inj {b m n m' n' : ℕ} (hm : m < b) (hm' : m' < b)
    (h : m + b * n = m' + b * n') : m = m' ∧ n = n' := by
  have hb : 0 < b := lt_of_le_of_lt (Nat.zero_le m) hm
  have h1 : (m + b * n) % b = m := by
    rw [Nat.add_mul_mod_self_left, Nat.mod_eq_of_lt hm]
  have h2 : (m' + b * n') % b = m' := by
    rw [Nat.add_mul_mod_self_left, Nat.mod_eq_of_lt hm']
  have hmm : m = m' := by rw [← h1, ← h2, h]
  refine ⟨hmm, Nat.eq_of_mul_eq_mul_left hb ?_⟩
  omega

/-- The linearization is injective on valid coordinates. -/
theorem index_inj {w h x y z x' y' z' : ℕ} (hx : x < w) (hy : y < h)
    (hx' : x' < w) (hy' : y' < h)
    (heq : w * h * z + w * y + x = w * h * z' + w * y' + x') :
    x = x' ∧ y = y' ∧ z = z' := by
  have e : x + w * (y + h * z) = x' + w * (y' + h * z') := by
    have a1 : w * h * z + w * y + x = x + w * (y + h * z) := by ring
    have a2 : w * h * z' + w * y' + x' = x' + w * (y' + h * z') := by ring
    rw [← a1, ← a2]; exact heq
  obtain ⟨exx, eyz⟩ := digit_inj hx hx' e
  obtain ⟨eyy, ezz⟩ := digit_inj hy hy' eyz
  exact ⟨exx, eyy, ezz⟩

/-- Characterization of a successful `getIndex`. -/
theorem getIndex_eq_some_iff {vg : VoxelGrid} {x y z i : ℕ} :
    getIndex vg x y z = some i ↔
      x < vg.counts.1 ∧ y < vg.counts.2.1 ∧ z < vg.counts.2.2 ∧
        i = vg.counts.1 * vg.counts.2.1 * z + vg.counts.1 * y + x := by
  by_cases hb : x ≥ vg.counts.1 ∨ y ≥ vg.counts.2.1 ∨ z ≥ vg.counts.2.2
  · simp [getIndex, hb]; omega
  · push_neg at hb
    simp [getIndex, hb, not_or]
    exact eq_comm

/-!
Claim theorems.
-/

/-- C1: the spec claims `GetCoordinate(GetIndex(x,y,z)) == (x,y,z)` and
`GetIndex(GetCoordinate(i)) == i`. Both round trips fail on the source:
on a 2×2×2 grid, `getIndex(1,0,0) = 1` but `getCoordinate(1) = (0,0,1)`,
and `getIndex(0,0,1) = 4 ≠ 1` — `getCoordinate` divides by `counts[2]`
then `counts[1]`, the transpose of the x-fastest layout of `getIndex`. -/
theorem getCoordinate_getIndex_roundtrip_fails :
    getIndex grid222 1 0 0 = some 1 ∧
    getCoordinate grid222 1 = some (0, 0, 1) ∧
    getIndex grid222 0 0 1 = some 4 := by
  decide

/-- C2: the spec claims `Copy` yields an independent grid with identical
dimensions, resolution and contents. On the source, `Copy` of a 1×1×1 grid
holding value 1 returns a grid with an empty voxel slice and resolution 0:
the struct literal initializes only `counts`, so `copy` targets a nil
slice and copies nothing. -/
theorem copy_drops_contents_and_resolution :
    grid111one.voxels = [1] ∧ grid111one.resolution = 1 ∧
    (Copy grid111one).counts = grid111one.counts ∧
    (Copy grid111one).voxels = [] ∧ (Copy grid111one).resolution = 0 := by
  decide

/-- C4 counterexample: the spec claims `NewVoxelGrid` faults when
`resolution == 0`; on the source, `NewVoxelGrid(1,1,1,0)` succeeds and
returns a grid with zero voxels along each axis. -/
theorem newVoxelGrid_zero_resolution_succeeds :
    NewVoxelGrid 1 1 1 0 =
      some { resolution := 0, counts := (0, 0, 0), voxels := [] } := by
  norm_num [NewVoxelGrid]

/-- C4 amended: construction with `resolution == 0` does not fault — for
every choice of extents it returns an empty grid with counts `(0,0,0)`. -/
theorem newVoxelGrid_zero_resolution_empty (width height depth : ℚ) :
    NewVoxelGrid width height depth 0 =
      some { resolution := 0, counts := (0, 0, 0), voxels := [] } := by
  simp [NewVoxelGrid]

/-- C5 counterexample: the spec claims `getCoordinate` faults exactly when
`index >= w*h*d`; on a 2×2×2 grid (8 voxels) the source accepts index 8
and returns `(0,0,0)` because its bounds check uses strict `>`. -/
theorem getCoordinate_at_size_returns_value :
    grid222.voxels.length = 2 * 2 * 2 ∧
    getCoordinate grid222 8 = some (0, 0, 0) := by
  decide

/-- C5 amended: on a grid with positive counts satisfying the length
invariant, `getCoordinate(index)` faults if and only if
`index > w*h*d` (one past the size is accepted). -/
theorem getCoordinate_fault_iff (vg : VoxelGrid) (i : ℕ)
    (hw : 0 < vg.counts.1) (hh : 0 < vg.counts.2.1) (hd : 0 < vg.counts.2.2)
    (hlen : vg.voxels.length = vg.counts.1 * vg.counts.2.1 * vg.counts.2.2) :
    getCoordinate vg i = none ↔
      vg.counts.1 * vg.counts.2.1 * vg.counts.2.2 < i := by
  by_cases hi : i > vg.voxels.length
  · simp [getCoordinate, hi]
    omega
  · simp only [getCoordinate, hi, if_false]
    simp [divmod, hd.ne', hh.ne', hw.ne']
    omega

/-- Witness instantiating `getCoordinate_fault_iff` on `grid222` at
index 9. -/
theorem getCoordinate_fault_iff_witness :
    ((0 : ℕ) < 2 ∧ (0 : ℕ) < 2 ∧ (0 : ℕ) < 2 ∧
      grid222.voxels.length = 2 * 2 * 2) ∧
    (getCoordinate grid222 9 = none ↔ 2 * 2 * 2 < 9) := by
  exact ⟨by decide,
    getCoordinate_fault_iff grid222 9 (by decide) (by decide) (by decide)
      (by decide)⟩

/-- `getIndex` reads only the counts, so replacing the voxel slice does
not change it. -/
theorem getIndex_voxels_irrel (vg : VoxelGrid) (l : List Voxel) (x y z : ℕ) :
    getIndex { vg with voxels := l } x y z = getIndex vg x y z := rfl

/-- A `Get` on a grid whose voxels were mapped pointwise is the mapped
`Get`. -/
theorem get_map_voxels (vg : VoxelGrid) (f : Voxel → Voxel) {x y z : ℕ}
    (hx : x < vg.counts.1) (hy : y < vg.counts.2.1) (hz : z < vg.counts.2.2) :
    Get { vg with voxels := vg.voxels.map f } x y z =
      (Get vg x y z).map f := by
  have hidx : getIndex vg x y z =
      some (vg.counts.1 * vg.counts.2.1 * z + vg.counts.1 * y + x) :=
    getIndex_eq_some_iff.mpr ⟨hx, hy, hz, rfl⟩
  simp only [Get, getIndex_voxels_irrel, hidx]
  exact List.getElem?_map f vg.voxels _

/-- A valid coordinate on a grid satisfying the length invariant always
reads successfully. -/
theorem get_isSome (vg : VoxelGrid) {x y z : ℕ}
    (hx : x < vg.counts.1) (hy : y < vg.counts.2.1) (hz : z < vg.counts.2.2)
    (hlen : vg.voxels.length = vg.counts.1 * vg.counts.2.1 * vg.counts.2.2) :
    ∃ a, Get vg x y z = some a := by
  have hidx : getIndex vg x y z =
      some (vg.counts.1 * vg.counts.2.1 * z + vg.counts.1 * y + x) :=
    getIndex_eq_some_iff.mpr ⟨hx, hy, hz, rfl⟩
  have hlt : vg.counts.1 * vg.counts.2.1 * z + vg.counts.1 * y + x <
      vg.voxels.length := by
    rw [hlen]; exact index_lt hx hy hz
  refine ⟨vg.voxels[vg.counts.1 * vg.counts.2.1 * z + vg.counts.1 * y + x], ?_⟩
  simp only [Get, hidx]
  exact List.getElem?_eq_getElem hlt

/-- C6: after `Fill(v)`, `Get` at any valid coordinate returns
`clamp(v,0,1)`; `Fill(1.5)` leaves exactly the state of `Fill(1.0)`; and
`Fill` applied twice with the same value equals `Fill` applied once. -/
theorem fill_clamps_and_idempotent (vg : VoxelGrid) (v : ℚ) (x y z : ℕ)
    (hx : x < vg.counts.1) (hy : y < vg.counts.2.1) (hz : z < vg.counts.2.2)
    (hlen : vg.voxels.length = vg.counts.1 * vg.counts.2.1 * vg.counts.2.2) :
    Get (Fill vg v) x y z = some (clamp01 v) ∧
    Fill vg (3 / 2) = Fill vg 1 ∧
    Fill (Fill vg v) v = Fill vg v := by
  refine ⟨?_, ?_, ?_⟩
  · obtain ⟨a, ha⟩ := get_isSome vg hx hy hz hlen
    have := get_map_voxels vg (fun _ => clamp01 v) hx hy hz
    rw [show Fill vg v = { vg with voxels := vg.voxels.map (fun _ => clamp01 v) } from rfl,
      this, ha]
    rfl
  · have h32 : clamp01 (3 / 2) = 1 := by norm_num [clamp01]
    have h11 : clamp01 1 = 1 := by norm_num [clamp01]
    simp [Fill, h32, h11]
  · simp [Fill, List.map_map, Function.comp]

/-- Witness instantiating `fill_clamps_and_idempotent` on `grid222` with
value 3/4 at coordinate (1,1,1). -/
theorem fill_clamps_and_idempotent_witness :
    ((1 : ℕ) < 2 ∧ (1 : ℕ) < 2 ∧ (1 : ℕ) < 2 ∧
      grid222.voxels.length = 2 * 2 * 2) ∧
    (Get (Fill grid222 (3 / 4)) 1 1 1 = some (clamp01 (3 / 4)) ∧
     Fill grid222 (3 / 2) = Fill grid222 1 ∧
     Fill (Fill grid222 (3 / 4)) (3 / 4) = Fill grid222 (3 / 4)) :=
  ⟨by decide,
   fill_clamps_and_idempotent grid222 (3 / 4) 1 1 1 (by decide) (by decide)
     (by decide) (by decide)⟩

/-- C8: after `HighPass(t)` a cell holds 1 exactly when its previous value
was strictly greater than `t`, else 0; a value exactly equal to `t`
becomes 0. -/
theorem highPass_binarizes (vg : VoxelGrid) (t : ℚ) (x y z : ℕ) (v : ℚ)
    (hx : x < vg.counts.1) (hy : y < vg.counts.2.1) (hz : z < vg.counts.2.2)
    (hv : Get vg x y z = some v) :
    Get (HighPass vg t) x y z = some (if t < v then 1 else 0) ∧
    (v = t → Get (HighPass vg t) x y z = some 0) := by
  have hmap := get_map_voxels vg (fun a => if t < a then 1 else 0) hx hy hz
  rw [show HighPass vg t =
      { vg with voxels := vg.voxels.map (fun a => if t < a then 1 else 0) }
    from rfl]
  rw [hmap, hv]
  constructor
  · rfl
  · intro he
    subst he
    simp

/-- Witness instantiating `highPass_binarizes` on `gridHalf` with
tolerance exactly equal to the stored value 1/2. -/
theorem highPass_binarizes_witness :
    ((0 : ℕ) < 1 ∧ (0 : ℕ) < 1 ∧ (0 : ℕ) < 1 ∧
      Get gridHalf 0 0 0 = some (1 / 2)) ∧
    (Get (HighPass gridHalf (1 / 2)) 0 0 0 =
        some (if (1 / 2 : ℚ) < 1 / 2 then 1 else 0) ∧
     ((1 / 2 : ℚ) = 1 / 2 →
        Get (HighPass gridHalf (1 / 2)) 0 0 0 = some 0)) :=
  ⟨⟨by decide, by decide, by decide, by norm_num [Get, getIndex, gridHalf]⟩,
   highPass_binarizes gridHalf (1 / 2) 0 0 0 (1 / 2) (by decide) (by decide)
     (by decide) (by norm_num [Get, getIndex, gridHalf])⟩

/-- C10: `Set(x,y,z,v)` succeeds on a valid coordinate, changes only that
cell — resolution, counts, length and every other cell are unchanged —
and the following `Get` returns `v` unmodified, with no clamping, for any
`v` whatsoever. -/
theorem set_frame_local (vg : VoxelGrid) (x y z : ℕ) (v : ℚ)
    (hx : x < vg.counts.1) (hy : y < vg.counts.2.1) (hz : z < vg.counts.2.2)
    (hlen : vg.voxels.length = vg.counts.1 * vg.counts.2.1 * vg.counts.2.2) :
    ∃ vg', Set vg x y z v = some vg' ∧
      vg'.resolution = vg.resolution ∧ vg'.counts = vg.counts ∧
      vg'.voxels.length = vg.voxels.length ∧
      Get vg' x y z = some v ∧
      ∀ a b c : ℕ, ¬(a = x ∧ b = y ∧ c = z) →
        Get vg' a b c = Get vg a b c := by
  have hidx : getIndex vg x y z =
      some (vg.counts.1 * vg.counts.2.1 * z + vg.counts.1 * y + x) :=
    getIndex_eq_some_iff.mpr ⟨hx, hy, hz, rfl⟩
  have hlt : vg.counts.1 * vg.counts.2.1 * z + vg.counts.1 * y + x <
      vg.voxels.length := by
    rw [hlen]; exact index_lt hx hy hz
  refine ⟨VoxelGrid.mk vg.resolution vg.counts
      (vg.voxels.set (vg.counts.1 * vg.counts.2.1 * z + vg.counts.1 * y + x) v),
    ?_, rfl, rfl, List.length_set vg.voxels _ v, ?_, ?_⟩
  · simp only [Set, hidx]
    rw [if_pos hlt]
  · simp only [Get, getIndex_voxels_irrel, hidx]
    exact List.getElem?_set_self hlt
  · intro a b c hne
    simp only [Get, getIndex_voxels_irrel]
    cases hab : getIndex vg a b c with
    | none => rfl
    | some j =>
      obtain ⟨ha, hb, hc, hj⟩ := getIndex_eq_some_iff.mp hab
      have hne2 : vg.counts.1 * vg.counts.2.1 * z + vg.counts.1 * y + x ≠ j := by
        intro he
        apply hne
        have hco := index_inj hx hy ha hb (by rw [he, hj])
        exact ⟨hco.1.symm, hco.2.1.symm, hco.2.2.symm⟩
      exact List.getElem?_set_ne hne2

/-- Witness instantiating `set_frame_local` on `grid222` at (0,0,0) with
the out-of-range value 5. -/
theorem set_frame_local_witness :
    ((0 : ℕ) < 2 ∧ (0 : ℕ) < 2 ∧ (0 : ℕ) < 2 ∧
      grid222.voxels.length = 2 * 2 * 2) ∧
    (∃ vg', Set grid222 0 0 0 5 = some vg' ∧
      vg'.resolution = grid222.resolution ∧ vg'.counts = grid222.counts ∧
      vg'.voxels.length = grid222.voxels.length ∧
      Get vg' 0 0 0 = some 5 ∧
      ∀ a b c : ℕ, ¬(a = 0 ∧ b = 0 ∧ c = 0) →
        Get vg' a b c = Get grid222 a b c) :=
  ⟨by decide,
   set_frame_local grid222 0 0 0 5 (by decide) (by decide) (by decide)
     (by decide)⟩

/-- C7: `Randomize` is deterministic in its seed — on two grids of the
same dimensions it writes identical contents, with no other input than
the seed-determined stream — and every written cell lies in [0,1)
whenever every stream draw does (the documented Float32 contract). -/
theorem randomize_deterministic_in_range
    (stream : ℤ → ℕ → ℚ) (hr : ∀ s i, 0 ≤ stream s i ∧ stream s i < 1)
    (s : ℤ) (g1 g2 : VoxelGrid) (hc : g1.counts = g2.counts)
    (hl1 : g1.voxels.length = g1.counts.1 * g1.counts.2.1 * g1.counts.2.2)
    (hl2 : g2.voxels.length = g2.counts.1 * g2.counts.2.1 * g2.counts.2.2) :
    (Randomize stream s g1).voxels = (Randomize stream s g2).voxels ∧
    ∀ v ∈ (Randomize stream s g1).voxels, 0 ≤ v ∧ v < 1 := by
  constructor
  · show (List.range g1.voxels.length).map (stream s) =
      (List.range g2.voxels.length).map (stream s)
    rw [hl1, hl2, hc]
  · intro v hv
    have hv2 : v ∈ (List.range g1.voxels.length).map (stream s) := hv
    obtain ⟨i, _, rfl⟩ := List.mem_map.mp hv2
    exact hr s i

/-- Witness instantiating `randomize_deterministic_in_range` with the
constant 1/2 stream, seed 42, and two grids sharing counts (2,2,2). -/
theorem randomize_deterministic_in_range_witness :
    ((∀ s i, 0 ≤ halfStream s i ∧ halfStream s i < 1) ∧
      grid222.counts = grid222alt.counts ∧
      grid222.voxels.length =
        grid222.counts.1 * grid222.counts.2.1 * grid222.counts.2.2 ∧
      grid222alt.voxels.length =
        grid222alt.counts.1 * grid222alt.counts.2.1 * grid222alt.counts.2.2) ∧
    ((Randomize halfStream 42 grid222).voxels =
        (Randomize halfStream 42 grid222alt).voxels ∧
     ∀ v ∈ (Randomize halfStream 42 grid222).voxels, 0 ≤ v ∧ v < 1) :=
  ⟨⟨fun s i => by norm_num [halfStream], by decide, by decide, by decide⟩,
   randomize_deterministic_in_range halfStream
     (fun s i => by norm_num [halfStream]) 42 grid222 grid222alt
     (by decide) (by decide) (by decide)⟩

/-- C9: the spec claims the point emitted for the cell at coordinates
`(x,y,z)` is `(x/res, y/res, z/res)`. On the source, the only occupied
cell of `gridPoint` sits at coordinates (1,0,0) — slice index 1 — yet
`VertexPoints` returns the single point (0,0,1): the emitted points
inherit the axis transposition of `getCoordinate`. -/
theorem vertexPoints_transposed :
    Get gridPoint 1 0 0 = some 1 ∧
    VertexPoints gridPoint = some [(0, 0, 1)] := by
  constructor
  · decide
  · norm_num [VertexPoints, gridPoint, getCoordinate, divmod, List.enum,
      List.filter, List.mapM, List.mapM.loop, Option.map]

/-- Reading any in-range position of a list whose elements all equal `c`
yields `c`. -/
theorem getD_all_eq {l : List ℚ} {c : ℚ} (h : ∀ a ∈ l, a = c) {i : ℕ}
    (hi : i < l.length) (dflt : ℚ) : l.getD i dflt = c := by
  rw [List.getD_eq_getElem l dflt hi]
  exact h _ (List.getElem_mem hi)

/-- Every cell of a filled grid reads as the clamped fill value. -/
theorem cellValue_fill (vg : VoxelGrid) (v : ℚ) {x y z : ℕ}
    (hx : x < vg.counts.1) (hy : y < vg.counts.2.1) (hz : z < vg.counts.2.2)
    (hlen : vg.voxels.length = vg.counts.1 * vg.counts.2.1 * vg.counts.2.2) :
    cellValue (Fill vg v) x y z = clamp01 v := by
  have hlt : vg.counts.1 * vg.counts.2.1 * z + vg.counts.1 * y + x <
      (vg.voxels.map (fun _ => clamp01 v)).length := by
    rw [List.length_map, hlen]
    exact index_lt hx hy hz
  show (vg.voxels.map (fun _ => clamp01 v)).getD
    (vg.counts.1 * vg.counts.2.1 * z + vg.counts.1 * y + x) 0 = clamp01 v
  refine getD_all_eq ?_ hlt 0
  intro a ha
  obtain ⟨b, _, rfl⟩ := List.mem_map.mp ha
  rfl

/-- Every corner value of an in-bounds march cube on a filled grid is the
clamped fill value. -/
theorem cornerValue_fill (vg : VoxelGrid) (v : ℚ) {x y z : ℕ} (i : ℕ)
    (hi : i < 8) (hx : x + 1 < vg.counts.1) (hy : y + 1 < vg.counts.2.1)
    (hz : z + 1 < vg.counts.2.2)
    (hlen : vg.voxels.length = vg.counts.1 * vg.counts.2.1 * vg.counts.2.2) :
    cornerValue (Fill vg v) x y z i = clamp01 v := by
  have hoff : ∀ j, j < 8 → (cornerOffset j).1 ≤ 1 ∧
      (cornerOffset j).2.1 ≤ 1 ∧ (cornerOffset j).2.2 ≤ 1 := by decide
  obtain ⟨h1, h2, h3⟩ := hoff i hi
  show cellValue (Fill vg v) (x + (cornerOffset i).1)
    (y + (cornerOffset i).2.1) (z + (cornerOffset i).2.2) = clamp01 v
  exact cellValue_fill vg v (by omega) (by omega) (by omega) hlen

/-- A cube whose 8 corners are all above the iso-value classifies as
255. -/
theorem cubeConfig_all_above {vg : VoxelGrid} {iso : ℚ} {x y z : ℕ}
    (h : ∀ i, i < 8 → iso < cornerValue vg x y z i) :
    cubeConfig vg iso x y z = 255 := by
  simp only [cubeConfig, if_pos (h 0 (by norm_num)), if_pos (h 1 (by norm_num)),
    if_pos (h 2 (by norm_num)), if_pos (h 3 (by norm_num)),
    if_pos (h 4 (by norm_num)), if_pos (h 5 (by norm_num)),
    if_pos (h 6 (by norm_num)), if_pos (h 7 (by norm_num))]

/-- A cube with no corner above the iso-value classifies as 0. -/
theorem cubeConfig_none_above {vg : VoxelGrid} {iso : ℚ} {x y z : ℕ}
    (h : ∀ i, i < 8 → ¬ iso < cornerValue vg x y z i) :
    cubeConfig vg iso x y z = 0 := by
  simp only [cubeConfig, if_neg (h 0 (by norm_num)), if_neg (h 1 (by norm_num)),
    if_neg (h 2 (by norm_num)), if_neg (h 3 (by norm_num)),
    if_neg (h 4 (by norm_num)), if_neg (h 5 (by norm_num)),
    if_neg (h 6 (by norm_num)), if_neg (h 7 (by norm_num))]

/-- Every cube anchor produced by the extraction loop has its +1
neighbors in-bounds. -/
theorem cubePositions_bounds {vg : VoxelGrid} {p : ℕ × ℕ × ℕ}
    (hp : p ∈ cubePositions vg) :
    p.1 + 1 < vg.counts.1 ∧ p.2.1 + 1 < vg.counts.2.1 ∧
      p.2.2 + 1 < vg.counts.2.2 := by
  simp only [cubePositions, List.mem_flatten, List.mem_map,
    List.mem_range] at hp
  obtain ⟨l1, ⟨z, hz, rfl⟩, hp1⟩ := hp
  simp only [List.mem_flatten, List.mem_map, List.mem_range] at hp1
  obtain ⟨l2, ⟨y, hy, rfl⟩, hp2⟩ := hp1
  simp only [List.mem_map, List.mem_range] at hp2
  obtain ⟨x, hx, rfl⟩ := hp2
  refine ⟨by omega, ?_, ?_⟩
  · show y + 1 < vg.counts.2.1
    omega
  · show z + 1 < vg.counts.2.2
    omega

/-- On a grid filled with a single value no cube crosses the iso-value,
so no cube contributes a triangle (given the spec's no-surface entries of
the table). -/
theorem extractTriangles_fill_empty (table : ℕ → List (ℕ × ℕ × ℕ))
    (h0 : table 0 = []) (h255 : table 255 = []) (iso v : ℚ) (vg : VoxelGrid)
    (hlen : vg.voxels.length = vg.counts.1 * vg.counts.2.1 * vg.counts.2.2) :
    extractTriangles table iso (Fill vg v) = [] := by
  apply List.flatten_eq_nil_iff.mpr
  intro l hl
  obtain ⟨p, hp, rfl⟩ := List.mem_map.mp hl
  have hb := cubePositions_bounds hp
  have hcfg : cubeConfig (Fill vg v) iso p.1 p.2.1 p.2.2 = 255 ∨
      cubeConfig (Fill vg v) iso p.1 p.2.1 p.2.2 = 0 := by
    by_cases hcmp : iso < clamp01 v
    · left
      apply cubeConfig_all_above
      intro i hi
      rw [cornerValue_fill vg v i hi hb.1 hb.2.1 hb.2.2 hlen]
      exact hcmp
    · right
      apply cubeConfig_none_above
      intro i hi
      rw [cornerValue_fill vg v i hi hb.1 hb.2.1 hb.2.2 hlen]
      exact hcmp
  show cubeTriangles table iso (Fill vg v) p.1 p.2.1 p.2.2 = []
  unfold cubeTriangles
  rcases hcfg with h | h <;> rw [h] <;> simp [h0, h255]

/-- C3: on any grid satisfying the length invariant, `Fill(1.0)` followed
by extraction at iso-value 0.5 yields zero triangles, and `Fill(0.0)`
likewise — a uniform field has no surface crossing. The extractor is
modelled from spec §4.2 (the source `Mesh` is an empty stub), with the
triangulation table a parameter constrained by its spec-stated no-surface
entries. -/
theorem mesh_uniform_fill_no_triangles (table : ℕ → List (ℕ × ℕ × ℕ))
    (h0 : table 0 = []) (h255 : table 255 = []) (vg : VoxelGrid)
    (hlen : vg.voxels.length = vg.counts.1 * vg.counts.2.1 * vg.counts.2.2) :
    (extract table (1 / 2) (Fill vg 1)).triangles = [] ∧
    (extract table (1 / 2) (Fill vg 0)).triangles = [] := by
  have e1 := extractTriangles_fill_empty table h0 h255 (1 / 2) 1 vg hlen
  have e2 := extractTriangles_fill_empty table h0 h255 (1 / 2) 0 vg hlen
  constructor
  · show (List.range (extractTriangles table (1 / 2) (Fill vg 1)).length).map
      (fun j => (3 * j, 3 * j + 1, 3 * j + 2)) = []
    rw [e1]
    rfl
  · show (List.range (extractTriangles table (1 / 2) (Fill vg 0)).length).map
      (fun j => (3 * j, 3 * j + 1, 3 * j + 2)) = []
    rw [e2]
    rfl

/-- Witness instantiating `mesh_uniform_fill_no_triangles` with the
concrete corner-cut table on `grid222`. -/
theorem mesh_uniform_fill_no_triangles_witness :
    (cornerCutTable 0 = [] ∧ cornerCutTable 255 = [] ∧
      grid222.voxels.length =
        grid222.counts.1 * grid222.counts.2.1 * grid222.counts.2.2) ∧
    ((extract cornerCutTable (1 / 2) (Fill grid222 1)).triangles = [] ∧
     (extract cornerCutTable (1 / 2) (Fill grid222 0)).triangles = []) :=
  ⟨⟨by decide, by decide, by decide⟩,
   mesh_uniform_fill_no_triangles cornerCutTable (by decide) (by decide)
     grid222 (by decide)⟩

end OpenPAF
